import Mathlib

/-!
Verification development for the ElasticSearchQuerier repository: a shallow
embedding of its scroll-pagination core (response parser, hit processor,
backoff executor, and the orchestrating loops of the refactored, modular and
draft variants), together with theorems settling the specification claims.
-/

namespace ESQuerier

/-- JSON values as produced by decoding a response body into dynamic Go values.
Numbers are modelled as integers, which covers every numeric value the claims
exercise (hit counts); a non-numeric value in a numeric position is
representable by the other constructors. -/
inductive JValue where
  | null
  | bool (b : Bool)
  | num (n : Int)
  | str (s : String)
  | arr (elems : List JValue)
  | obj (fields : List (String × JValue))

/-- A decoded JSON object, as Go's map from string keys to dynamic values. -/
abbrev JObject := List (String × JValue)

/-- Type assertion to a string, as in the Go form v, ok := x.(string). -/
def JValue.asString : JValue → Option String
  | .str s => some s
  | _ => none

/-- Type assertion to a nested object, as in x.(map[string]interface). -/
def JValue.asObj : JValue → Option JObject
  | .obj fields => some fields
  | _ => none

/-- Type assertion to an array, as in x.([]interface). -/
def JValue.asArr : JValue → Option (List JValue)
  | .arr elems => some elems
  | _ => none

/-- Type assertion to a number, as in x.(float64). -/
def JValue.asNum : JValue → Option Int
  | .num n => some n
  | _ => none

/-- The inner document object a hit is unmarshalled into (refactored variant):
only the title field is mapped. -/
structure HitSource where
  Title : String
deriving DecidableEq

/-- A single search hit of the refactored variant. -/
structure Hit where
  Source : HitSource
deriving DecidableEq

/-- Models json.Marshal of one decoded hit followed by json.Unmarshal into Hit
(the loop body of the refactored extractHits): an absent key leaves the zero
value (empty string), JSON null is a no-op, and a value of the wrong shape is
an unmarshal error. -/
def unmarshalHit : JValue → Except String Hit
  | .obj fields =>
    match List.lookup "_source" fields with
    | none => .ok ⟨⟨""⟩⟩
    | some .null => .ok ⟨⟨""⟩⟩
    | some (.obj sfields) =>
      match List.lookup "title" sfields with
      | none => .ok ⟨⟨""⟩⟩
      | some .null => .ok ⟨⟨""⟩⟩
      | some (.str t) => .ok ⟨⟨t⟩⟩
      | some _ => .error "error unmarshaling hit"
    | some _ => .error "error unmarshaling hit"
  | .null => .ok ⟨⟨""⟩⟩
  | _ => .error "error unmarshaling hit"

/-- Unmarshals the elements of the hits array in order, stopping at the first
failing element, as the refactored extractHits loop does. -/
def unmarshalHits : List JValue → Except String (List Hit)
  | [] => .ok []
  | h :: rest =>
    match unmarshalHit h with
    | .error e => .error e
    | .ok hit =>
      match unmarshalHits rest with
      | .error e => .error e
      | .ok hits => .ok (hit :: hits)

/-- Models extractTotalHits of the refactored variant: the nested numeric
total-hit-count field, with each checked type assertion failing into the
corresponding error value. -/
def extractTotalHits (raw : JObject) : Except String Int :=
  match (List.lookup "hits" raw).bind JValue.asObj with
  | none => .error "hits not found in response"
  | some hitsObj =>
    match (List.lookup "total" hitsObj).bind JValue.asObj with
    | none => .error "total hits not found in response"
    | some totalObj =>
      match (List.lookup "value" totalObj).bind JValue.asNum with
      | none => .error "total hits value not found in response"
      | some totalHits => .ok totalHits

/-- Models extractHits of the refactored variant: the hits array is required;
its elements are unmarshalled in order. -/
def extractHits (raw : JObject) : Except String (List Hit) :=
  match (List.lookup "hits" raw).bind JValue.asObj with
  | none => .error "hits not found in response"
  | some hitsObj =>
    match (List.lookup "hits" hitsObj).bind JValue.asArr with
    | none => .error "hits array not found in response"
    | some hitsArray => unmarshalHits hitsArray

/-- The parsed search response of the refactored variant. -/
structure SearchResult where
  ScrollID : String
  TotalHits : Int
  Hits : List Hit
deriving DecidableEq

/-- Models parseSearchResponse of the refactored variant, applied to an
already-decoded response body: required cursor id, then total count, then the
hits. -/
def parseSearchResponse (raw : JObject) : Except String SearchResult :=
  match (List.lookup "_scroll_id" raw).bind JValue.asString with
  | none => .error "scroll ID not found in response"
  | some scrollID =>
    match extractTotalHits raw with
    | .error e => .error e
    | .ok totalHits =>
      match extractHits raw with
      | .error e => .error e
      | .ok hits => .ok ⟨scrollID, totalHits, hits⟩

/-- Models processHits of the refactored variant: the lines written to the
output file and the diagnostics logged, each in received order. The sink is
modelled as reliable, so the write-error branch cannot fire. -/
def processHits : List Hit → List String × List String
  | [] => ([], [])
  | hit :: rest =>
    let r := processHits rest
    if hit.Source.Title ≠ "" then ((hit.Source.Title ++ "\n") :: r.1, r.2)
    else (r.1, "Title field not found in this document." :: r.2)

/-- Total page count as computed in the draft and modular mains from the total
hit count and the batch size. Go int division agrees with natural division on
the claim's domain of nonnegative totals and positive page sizes. -/
def totalPages (totalHits batchSize : Nat) : Nat :=
  (totalHits + batchSize - 1) / batchSize

/-- One second, in nanoseconds, as Go's time.Second. -/
def second : Nat := 1000000000

/-- One minute, in nanoseconds, as Go's time.Minute. -/
def minute : Nat := 60 * second

/-- The three fields of the library's exponential-backoff policy that the
programs configure, in nanoseconds. -/
structure ExponentialBackOff where
  InitialInterval : Nat
  MaxInterval : Nat
  MaxElapsedTime : Nat
deriving DecidableEq

/-- The backoff parameters set inside retryWithBackoff in the refactored
variant. -/
def retryWithBackoffConfig : ExponentialBackOff :=
  { InitialInterval := 1 * second
    MaxInterval := 30 * second
    MaxElapsedTime := 5 * minute }

/-- Models newBackoffConfig of the modular client. -/
def newBackoffConfig : ExponentialBackOff :=
  { InitialInterval := 1 * second
    MaxInterval := 30 * second
    MaxElapsedTime := 5 * minute }

/-- Outcome of one attempt of a wrapped network operation: a transport-level
failure, an engine error response, or a healthy response with its decoded
body. -/
inductive ReqAttempt where
  | transportErr (msg : String)
  | errResponse (msg : String)
  | success (raw : JObject)

/-- The decoded body carried by a successful attempt. -/
def ReqAttempt.payload : ReqAttempt → JObject
  | .success raw => raw
  | _ => []

/-- The operation closure of the refactored retryWithBackoff: a transport
error or an engine error response is returned as an error (and hence retried);
a healthy response is accepted. -/
def operation : ReqAttempt → Option String
  | .transportErr m => some m
  | .errResponse m => some m
  | .success _ => none

/-- Models handleESResponse of the modular client: the same classification,
with the client's message prefixes. -/
def handleESResponse : ReqAttempt → Option String
  | .transportErr m => some ("elasticsearch request failed: " ++ m)
  | .errResponse m => some ("elasticsearch response error: " ++ m)
  | .success _ => none

/-- Deterministic model of the third-party backoff.Retry executor driven by an
ExponentialBackOff policy: the growth multiplier is the library default 1.5
with randomization disabled, attempts are instantaneous so elapsed time is the
sum of the sleeps, and NextBackOff stops (surfacing the last error) once the
next wait would take the elapsed time past MaxElapsedTime. The environment
supplies a finite list of attempt outcomes; none means the environment was
exhausted before the executor returned. -/
def backoffRetry (cfg : ExponentialBackOff) (classify : ReqAttempt → Option String) :
    List ReqAttempt → Nat → Nat → Option (Except String JObject)
  | [], _, _ => none
  | a :: rest, elapsed, interval =>
    match classify a with
    | none => some (.ok a.payload)
    | some m =>
      if cfg.MaxElapsedTime < elapsed + interval then some (.error m)
      else backoffRetry cfg classify rest (elapsed + interval)
        (min (interval * 3 / 2) cfg.MaxInterval)

/-- Model of backoff.Retry under backoff.WithContext as used by the refactored
retryWithBackoff: the same deterministic schedule, under a governing context
cancelled at virtual time cancelAt; a pending wait is abandoned at the moment
of cancellation and the context's error is surfaced. Returns the executor's
outcome together with the virtual time at which it returned. -/
def retryWithBackoffCtx (cancelAt : Nat) :
    List ReqAttempt → Nat → Nat → Option (Except String JObject) × Nat
  | [], elapsed, _ => (none, elapsed)
  | a :: rest, elapsed, interval =>
    match operation a with
    | none => (some (.ok a.payload), elapsed)
    | some m =>
      if cancelAt ≤ elapsed then (some (.error "context canceled"), elapsed)
      else if retryWithBackoffConfig.MaxElapsedTime < elapsed + interval then
        (some (.error m), elapsed)
      else if cancelAt ≤ elapsed + interval then
        (some (.error "context canceled"), cancelAt)
      else retryWithBackoffCtx cancelAt rest (elapsed + interval)
        (min (interval * 3 / 2) retryWithBackoffConfig.MaxInterval)

/-- Result of a Go computation that may return an error value or panic from an
unchecked type assertion. -/
inductive GoResult (α : Type) where
  | ok (val : α)
  | err (msg : String)
  | panicked (msg : String)

/-- The parsed scroll response of the modular client. -/
structure ScrollResult where
  ScrollID : String
  Hits : List JObject
  Total : Int

/-- Models the per-hit extraction loop of the modular parseScrollResponse:
each element and its inner document object are reached through unchecked type
assertions, which panic when the shape is wrong. -/
def sourcesOf : List JValue → GoResult (List JObject)
  | [] => .ok []
  | h :: rest =>
    match h.asObj with
    | none => .panicked "interface conversion"
    | some hitMap =>
      match (List.lookup "_source" hitMap).bind JValue.asObj with
      | none => .panicked "interface conversion"
      | some src =>
        match sourcesOf rest with
        | .ok tail => .ok (src :: tail)
        | .err m => .err m
        | .panicked m => .panicked m

/-- Models parseScrollResponse of the modular client: only the cursor id is
checked gracefully; the total, the hits array and each inner document object
are reached through unchecked type assertions that panic on a shape
mismatch. -/
def parseScrollResponse (raw : JObject) : GoResult ScrollResult :=
  match (List.lookup "_scroll_id" raw).bind JValue.asString with
  | none => .err "scroll ID not found in response"
  | some scrollID =>
    match (List.lookup "hits" raw).bind JValue.asObj with
    | none => .panicked "interface conversion"
    | some hitsObj =>
      match ((List.lookup "total" hitsObj).bind JValue.asObj).bind
          (fun t => (List.lookup "value" t).bind JValue.asNum) with
      | none => .panicked "interface conversion"
      | some total =>
        match (List.lookup "hits" hitsObj).bind JValue.asArr with
        | none => .panicked "interface conversion"
        | some hitsArr =>
          match sourcesOf hitsArr with
          | .ok srcs => .ok ⟨scrollID, srcs, total⟩
          | .err m => .err m
          | .panicked m => .panicked m

/-- Models ESClient.Scroll of the modular client: the scroll request runs
under backoff.Retry with newBackoffConfig, and on success the response body is
parsed. -/
def ESClient.Scroll (attempts : List ReqAttempt) : Option (GoResult ScrollResult) :=
  match backoffRetry newBackoffConfig handleESResponse attempts 0
      newBackoffConfig.InitialInterval with
  | none => none
  | some (.error m) => some (.err ("scroll request failed: " ++ m))
  | some (.ok raw) => some (parseScrollResponse raw)

/-- Go fmt.Sprintf with a string verb applied to a dynamic value; only string
values occur in the cases the claims exercise, and the Go rendering of other
shapes is not modelled. -/
def sprintValue : JValue → String
  | .str s => s
  | _ => ""

/-- Models FileProcessor.ProcessHits of the modular variant: the hits are the
decoded inner document objects; a present title key is written followed by a
newline; the loop body contains no logging statement, so the diagnostics
component is never extended. The sink is modelled as reliable. -/
def FileProcessor.ProcessHits : List JObject → List String × List String
  | [] => ([], [])
  | hit :: rest =>
    let r := FileProcessor.ProcessHits rest
    match List.lookup "title" hit with
    | some message => ((sprintValue message ++ "\n") :: r.1, r.2)
    | none => r

/-- Outcome the environment assigns to one scroll request issued by the
refactored paging loop (which issues it without the backoff executor). -/
inductive ScrollOutcome where
  | transportErr (msg : String)
  | errResponse (msg : String)
  | page (raw : JObject)

/-- Outcome the environment assigns to the clear-scroll request. -/
inductive ClearOutcome where
  | ok
  | transportErr (msg : String)
  | errResponse (msg : String)
deriving DecidableEq

/-- Environment of one run of the refactored executeSearch: the attempt
outcomes available to the retried initial search, the responses to successive
scroll requests, the outcome of the clear-scroll request, and whether the
governing context is already cancelled at the i-th loop-top check. -/
structure Env where
  searchAttempts : List ReqAttempt
  scrollOutcomes : List ScrollOutcome
  clearOutcome : ClearOutcome
  cancelled : Nat → Bool

/-- Mutable state of the refactored paging loop: the one live cursor, the
lines written so far, diagnostics logged so far, and the number of scroll
requests issued. -/
structure LoopState where
  scrollID : String
  out : List String
  diags : List String
  calls : Nat

/-- How the refactored paging loop was left: by break (context cancelled or
empty page), by an error return, or with the environment exhausted. -/
inductive LoopExit where
  | done
  | errExit (msg : String)
  | fuelOut

/-- Models clearScroll of the refactored variant: a transport failure is
returned to the caller; an engine error response is logged inside and nil is
returned. -/
def clearScroll : ClearOutcome → Except String (List String)
  | .ok => .ok []
  | .transportErr m => .error m
  | .errResponse m => .ok ["Error in clear scroll response: " ++ m]

/-- Models the scroll loop of the refactored executeSearch: at each iteration
the context is checked first; then the scroll request is issued, its error
status checked, its body parsed, and the page either ends the loop (when
empty, before the cursor is updated) or is processed, after which the cursor
is replaced. -/
def scrollLoop (cancelled : Nat → Bool) :
    List ScrollOutcome → Nat → LoopState → LoopState × LoopExit
  | outcomes, i, st =>
    if cancelled i then (st, .done)
    else
      match outcomes with
      | [] => (st, .fuelOut)
      | .transportErr m :: _ =>
        ({ st with calls := st.calls + 1 }, .errExit ("scroll request failed: " ++ m))
      | .errResponse m :: _ =>
        ({ st with calls := st.calls + 1 }, .errExit ("scroll response error: " ++ m))
      | .page raw :: rest =>
        match parseSearchResponse raw with
        | .error e => ({ st with calls := st.calls + 1 }, .errExit e)
        | .ok r =>
          if r.Hits = [] then ({ st with calls := st.calls + 1 }, .done)
          else
            scrollLoop cancelled rest (i + 1)
              { scrollID := r.ScrollID
                out := st.out ++ (processHits r.Hits).1
                diags := st.diags ++ (processHits r.Hits).2
                calls := st.calls + 1 }

/-- Result of one run of the refactored executeSearch: the returned error (none
is the nil success return), the lines written to the sink, the diagnostics, the
number of scroll requests issued, whether the clear-scroll step was reached and
with which cursor, and the warnings logged around it. -/
structure RunResult where
  err : Option String
  out : List String
  diags : List String
  scrollCalls : Nat
  clearCalled : Bool
  clearArg : String
  warns : List String

/-- Models executeSearch of the refactored variant: the initial search runs
under the backoff executor and its response is parsed and processed; the paging
loop then scrolls until an error return, a cancellation or an empty page; only
the two break paths reach the clear-scroll step, whose failure is logged and
never propagated. The run is none when the environment was exhausted first. -/
def executeSearch (env : Env) : Option RunResult :=
  match backoffRetry retryWithBackoffConfig operation env.searchAttempts 0
      retryWithBackoffConfig.InitialInterval with
  | none => none
  | some (.error e) =>
    some { err := some ("initial search failed: " ++ e), out := [], diags := []
           scrollCalls := 0, clearCalled := false, clearArg := "", warns := [] }
  | some (.ok raw) =>
    match parseSearchResponse raw with
    | .error e =>
      some { err := some e, out := [], diags := []
             scrollCalls := 0, clearCalled := false, clearArg := "", warns := [] }
    | .ok r0 =>
      match scrollLoop env.cancelled env.scrollOutcomes 0
          { scrollID := r0.ScrollID, out := (processHits r0.Hits).1
            diags := (processHits r0.Hits).2, calls := 0 } with
      | (_, .fuelOut) => none
      | (st, .errExit e) =>
        some { err := some e, out := st.out, diags := st.diags
               scrollCalls := st.calls, clearCalled := false, clearArg := ""
               warns := [] }
      | (st, .done) =>
        some { err := none, out := st.out, diags := st.diags
               scrollCalls := st.calls, clearCalled := true
               clearArg := st.scrollID
               warns :=
                 match clearScroll env.clearOutcome with
                 | .error m => ["Error clearing scroll: " ++ m]
                 | .ok ws => ws }

/-- Models the clear-scroll step at the end of the monolithic draft mains: only
a transport-level failure is inspected, and it is passed to log.Fatalf, which
terminates the process with a failure; an engine error response is silently
ignored. -/
def draftClearScroll : ClearOutcome → Except String Unit
  | .transportErr m => .error ("Error clearing scroll: " ++ m)
  | _ => .ok ()

/-- Models the paging loop of the modular main: each Scroll outcome either
fails the run fatally, ends the loop on an empty page (the freshly returned
cursor is then the one passed to ClearScroll), or has its page processed and
appended. Returns the released cursor and the accumulated output, or none when
the environment was exhausted. -/
def modularMainLoop :
    List (Except String ScrollResult) → List String →
    Option (Except String (String × List String))
  | [], _ => none
  | .error e :: _, _ => some (.error ("Failed to scroll: " ++ e))
  | .ok r :: rest, out =>
    match r.Hits with
    | [] => some (.ok (r.ScrollID, out))
    | _ :: _ => modularMainLoop rest (out ++ (FileProcessor.ProcessHits r.Hits).1)

/-! Helper lemmas about the hit processors. -/

theorem processHits_out (hits : List Hit) :
    (processHits hits).1 =
      (hits.filter (fun h => h.Source.Title ≠ "")).map (fun h => h.Source.Title ++ "\n") := by
  induction hits with
  | nil => simp [processHits]
  | cons hit rest ih =>
    by_cases h : hit.Source.Title = "" <;>
      simp [processHits, List.filter_cons, h, ih]

theorem processHits_diags_length (hits : List Hit) :
    (processHits hits).2.length = (hits.filter (fun h => h.Source.Title = "")).length := by
  induction hits with
  | nil => simp [processHits]
  | cons hit rest ih =>
    by_cases h : hit.Source.Title = "" <;>
      simp [processHits, List.filter_cons, h, ih]

theorem processHits_append (xs ys : List Hit) :
    processHits (xs ++ ys) =
      ((processHits xs).1 ++ (processHits ys).1, (processHits xs).2 ++ (processHits ys).2) := by
  induction xs with
  | nil => simp [processHits]
  | cons hit rest ih =>
    by_cases h : hit.Source.Title = "" <;> simp [processHits, h, ih]

theorem fileProcessHits_out (hits : List JObject) :
    (FileProcessor.ProcessHits hits).1 =
      hits.filterMap (fun h => (List.lookup "title" h).map (fun v => sprintValue v ++ "\n")) := by
  induction hits with
  | nil => simp [FileProcessor.ProcessHits]
  | cons hit rest ih =>
    cases h : List.lookup "title" hit <;>
      simp [FileProcessor.ProcessHits, List.filterMap_cons, h, ih]

theorem fileProcessHits_diags (hits : List JObject) :
    (FileProcessor.ProcessHits hits).2 = [] := by
  induction hits with
  | nil => simp [FileProcessor.ProcessHits]
  | cons hit rest ih =>
    cases h : List.lookup "title" hit <;> simp [FileProcessor.ProcessHits, h, ih]

theorem unmarshalHits_length :
    ∀ raws hits, unmarshalHits raws = .ok hits → hits.length = raws.length := by
  intro raws
  induction raws with
  | nil => intro hits h; simp [unmarshalHits] at h; simp [← h]
  | cons a rest ih =>
    intro hits h
    simp only [unmarshalHits] at h
    cases ha : unmarshalHit a with
    | error e => rw [ha] at h; exact absurd h (by simp)
    | ok hit =>
      rw [ha] at h
      cases hr : unmarshalHits rest with
      | error e => rw [hr] at h; exact absurd h (by simp)
      | ok hits' =>
        rw [hr] at h
        simp only [Except.ok.injEq] at h
        simp [← h, ih hits' hr]

/-- Claim C6, corrected. For every sequence of records given to a hit
processor, records carrying the target field are written, field value plus
newline, in received order, and the number of output lines equals the number
of records carrying the field; a record without the field is skipped without
aborting and the remaining records are still processed. In the refactored
processor (where a record carries the field exactly when its unmarshalled
title is nonempty) each skip logs one diagnostic; in the modular
FileProcessor the skip is silent, as its loop has no logging statement. -/
theorem c6_amended :
    (∀ hits : List Hit,
      (processHits hits).1 =
        (hits.filter (fun h => h.Source.Title ≠ "")).map (fun h => h.Source.Title ++ "\n") ∧
      (processHits hits).1.length = (hits.filter (fun h => h.Source.Title ≠ "")).length ∧
      (processHits hits).2.length = (hits.filter (fun h => h.Source.Title = "")).length) ∧
    (∀ xs ys : List Hit, processHits (xs ++ ys) =
      ((processHits xs).1 ++ (processHits ys).1, (processHits xs).2 ++ (processHits ys).2)) ∧
    (∀ hits : List JObject,
      (FileProcessor.ProcessHits hits).1 =
        hits.filterMap (fun h => (List.lookup "title" h).map (fun v => sprintValue v ++ "\n")) ∧
      (FileProcessor.ProcessHits hits).2 = []) :=
  ⟨fun hits => ⟨processHits_out hits, by rw [processHits_out]; simp,
      processHits_diags_length hits⟩,
   processHits_append,
   fun hits => ⟨fileProcessHits_out hits, fileProcessHits_diags hits⟩⟩

/-- Claim C6, counterexample to the claim as stated: the modular
FileProcessor.ProcessHits skips a record lacking the title field without
emitting any diagnostic (both the output and the diagnostics are empty),
while the claim requires a diagnostic for every skipped record. -/
theorem c6_counterexample :
    FileProcessor.ProcessHits [[("message", JValue.str "log line")]] = ([], []) := rfl

/-- Claim C4, corrected. The refactored parser returns a ParseError when the
cursor id string is absent, when the nested total-hit-count numeric field is
absent or non-numeric, or when the records array is absent, and otherwise
returns the cursor, total and records triple; however a record in the array
that lacks its inner document object is not a ParseError: it is kept in the
record list (not skipped) as a record whose extracted field is empty. -/
theorem c4_amended :
    (∀ raw : JObject, (List.lookup "_scroll_id" raw).bind JValue.asString = none →
      parseSearchResponse raw = .error "scroll ID not found in response") ∧
    (∀ raw : JObject, (List.lookup "hits" raw).bind JValue.asObj = none →
      extractTotalHits raw = .error "hits not found in response") ∧
    (∀ raw hitsObj, (List.lookup "hits" raw).bind JValue.asObj = some hitsObj →
      (List.lookup "total" hitsObj).bind JValue.asObj = none →
      extractTotalHits raw = .error "total hits not found in response") ∧
    (∀ raw hitsObj totalObj, (List.lookup "hits" raw).bind JValue.asObj = some hitsObj →
      (List.lookup "total" hitsObj).bind JValue.asObj = some totalObj →
      (List.lookup "value" totalObj).bind JValue.asNum = none →
      extractTotalHits raw = .error "total hits value not found in response") ∧
    (∀ raw hitsObj, (List.lookup "hits" raw).bind JValue.asObj = some hitsObj →
      (List.lookup "hits" hitsObj).bind JValue.asArr = none →
      extractHits raw = .error "hits array not found in response") ∧
    (∀ raw sid e, (List.lookup "_scroll_id" raw).bind JValue.asString = some sid →
      extractTotalHits raw = .error e → parseSearchResponse raw = .error e) ∧
    (∀ raw sid n e, (List.lookup "_scroll_id" raw).bind JValue.asString = some sid →
      extractTotalHits raw = .ok n → extractHits raw = .error e →
      parseSearchResponse raw = .error e) ∧
    (∀ fields, List.lookup "_source" fields = none →
      unmarshalHit (.obj fields) = .ok ⟨⟨""⟩⟩) ∧
    (∀ raws hits, unmarshalHits raws = .ok hits → hits.length = raws.length) ∧
    (∀ raw sid n hits, (List.lookup "_scroll_id" raw).bind JValue.asString = some sid →
      extractTotalHits raw = .ok n → extractHits raw = .ok hits →
      parseSearchResponse raw = .ok ⟨sid, n, hits⟩) := by
  refine ⟨?_, ?_, ?_, ?_, ?_, ?_, ?_, ?_, unmarshalHits_length, ?_⟩
  · intro raw h; simp [parseSearchResponse, h]
  · intro raw h; simp [extractTotalHits, h]
  · intro raw hitsObj h1 h2; simp [extractTotalHits, h1, h2]
  · intro raw hitsObj totalObj h1 h2 h3; simp [extractTotalHits, h1, h2, h3]
  · intro raw hitsObj h1 h2; simp [extractHits, h1, h2]
  · intro raw sid e h1 h2; simp [parseSearchResponse, h1, h2]
  · intro raw sid n e h1 h2 h3; simp [parseSearchResponse, h1, h2, h3]
  · intro fields h; simp [unmarshalHit, h]
  · intro raw sid n hits h1 h2 h3; simp [parseSearchResponse, h1, h2, h3]

/-- Claim C4, counterexample to the claim as stated: a response whose single
record lacks its inner document object is parsed without any ParseError; the
record is silently unmarshalled into a hit with an empty title. -/
theorem c4_counterexample :
    parseSearchResponse
      [("_scroll_id", JValue.str "abc"),
       ("hits", JValue.obj
         [("total", JValue.obj [("value", JValue.num 5)]),
          ("hits", JValue.arr [JValue.obj [("_id", JValue.str "1")]])])] =
      Except.ok ⟨"abc", 5, [⟨⟨""⟩⟩]⟩ := rfl

/-- Claim C4, witness: the corrected parser contract applied at concrete
malformed and well-formed responses. -/
theorem c4_witness :
    parseSearchResponse [("took", JValue.num 3)] =
      Except.error "scroll ID not found in response" ∧
    extractTotalHits [("_scroll_id", JValue.str "s")] =
      Except.error "hits not found in response" ∧
    unmarshalHit (JValue.obj [("_id", JValue.str "7")]) = Except.ok ⟨⟨""⟩⟩ ∧
    parseSearchResponse
      [("_scroll_id", JValue.str "s"),
       ("hits", JValue.obj [("total", JValue.obj [("value", JValue.num 1)]),
         ("hits", JValue.arr [])])] = Except.ok ⟨"s", 1, []⟩ :=
  ⟨c4_amended.1 _ rfl, c4_amended.2.1 _ rfl, c4_amended.2.2.2.2.2.2.2.1 _ rfl,
   c4_amended.2.2.2.2.2.2.2.2.2 _ "s" 1 [] rfl rfl rfl⟩

/-! Helper lemmas about the backoff executor. -/

theorem backoffRetry_gives_up (classify : ReqAttempt → Option String) :
    ∀ l : List ReqAttempt, ∀ e i : Nat,
      (∀ a ∈ l, (classify a).isSome) → 1000000000 ≤ i →
      e ≤ 300000000000 → 300000000000 < e + l.length * 1000000000 →
      ∃ m, backoffRetry retryWithBackoffConfig classify l e i = some (Except.error m) := by
  intro l
  induction l with
  | nil => intro e i _ _ he hlen; exfalso; simp at hlen; omega
  | cons a rest ih =>
    intro e i hall hi he hlen
    obtain ⟨m, hm⟩ := Option.isSome_iff_exists.mp (hall a (by simp))
    simp only [backoffRetry, hm]
    have hMax : retryWithBackoffConfig.MaxElapsedTime = 300000000000 := rfl
    by_cases hstop : retryWithBackoffConfig.MaxElapsedTime < e + i
    · exact ⟨m, by rw [if_pos hstop]⟩
    · rw [if_neg hstop]
      rw [hMax] at hstop
      have hstop' : e + i ≤ 300000000000 := by omega
      have hi' : 1000000000 ≤ min (i * 3 / 2) retryWithBackoffConfig.MaxInterval := by
        have h30 : retryWithBackoffConfig.MaxInterval = 30000000000 := rfl
        rw [h30]
        exact le_min (by omega) (by norm_num)
      simp only [List.length_cons] at hlen
      exact ih (e + i) _ (fun x hx => hall x (List.mem_cons_of_mem a hx)) hi' hstop'
        (by omega)

theorem backoffRetry_success (classify : ReqAttempt → Option String) (raw : JObject)
    (hsucc : classify (ReqAttempt.success raw) = none) :
    ∀ pre : List ReqAttempt, ∀ e i : Nat,
      (∀ a ∈ pre, (classify a).isSome) → i ≤ 30000000000 →
      e + pre.length * 30000000000 + i ≤ 300000000000 →
      backoffRetry retryWithBackoffConfig classify (pre ++ [ReqAttempt.success raw]) e i =
        some (Except.ok raw) := by
  intro pre
  induction pre with
  | nil =>
    intro e i _ _ _
    simp [backoffRetry, hsucc, ReqAttempt.payload]
  | cons a rest ih =>
    intro e i hall hi hbound
    obtain ⟨m, hm⟩ := Option.isSome_iff_exists.mp (hall a (by simp))
    simp only [List.cons_append, backoffRetry, hm]
    have hMax : retryWithBackoffConfig.MaxElapsedTime = 300000000000 := rfl
    simp only [List.length_cons] at hbound
    rw [if_neg (by rw [hMax]; omega)]
    have hminle : min (i * 3 / 2) retryWithBackoffConfig.MaxInterval ≤ 30000000000 := by
      have h30 : retryWithBackoffConfig.MaxInterval = 30000000000 := rfl
      rw [h30]
      exact min_le_right _ _
    exact ih (e + i) _ (fun x hx => hall x (List.mem_cons_of_mem a hx)) hminle (by omega)

/-- Claim C5, confirmed. The retrying request executor is configured with an
initial backoff of one second, growth capped at thirty seconds between
attempts, and a five-minute elapsed-time budget (values in nanoseconds,
identical in the refactored and modular variants); its operation classifies
both a transport failure and an engine error response as retryable errors and
a healthy response as success; a single transient failure of either kind is
retried and recovers on the next attempt; and when every attempt fails the
executor stops within the budget and surfaces the failure. -/
theorem c5_confirmed :
    (retryWithBackoffConfig.InitialInterval = 1000000000 ∧
     retryWithBackoffConfig.MaxInterval = 30000000000 ∧
     retryWithBackoffConfig.MaxElapsedTime = 300000000000 ∧
     newBackoffConfig = retryWithBackoffConfig) ∧
    (∀ m, operation (ReqAttempt.transportErr m) = some m ∧
      operation (ReqAttempt.errResponse m) = some m) ∧
    (∀ raw, operation (ReqAttempt.success raw) = none) ∧
    (∀ m raw rest,
      backoffRetry retryWithBackoffConfig operation
        (ReqAttempt.transportErr m :: ReqAttempt.success raw :: rest) 0
        retryWithBackoffConfig.InitialInterval = some (Except.ok raw) ∧
      backoffRetry retryWithBackoffConfig operation
        (ReqAttempt.errResponse m :: ReqAttempt.success raw :: rest) 0
        retryWithBackoffConfig.InitialInterval = some (Except.ok raw)) ∧
    (∀ attempts : List ReqAttempt,
      (∀ a ∈ attempts, (operation a).isSome) →
      300000000000 < attempts.length * 1000000000 →
      ∃ m, backoffRetry retryWithBackoffConfig operation attempts 0
        retryWithBackoffConfig.InitialInterval = some (Except.error m)) := by
  refine ⟨⟨rfl, rfl, rfl, rfl⟩, fun m => ⟨rfl, rfl⟩, fun raw => rfl, ?_, ?_⟩
  · intro m raw rest
    constructor <;>
      · simp only [backoffRetry, operation]
        rw [if_neg (by decide)]
        simp [backoffRetry, operation, ReqAttempt.payload]
  · intro attempts hall hlen
    exact backoffRetry_gives_up operation attempts 0 retryWithBackoffConfig.InitialInterval
      hall (by decide) (by decide) (by simpa using hlen)

/-- Claim C5, witness: when all three hundred and one available attempts fail,
the executor gives up and surfaces an error. -/
theorem c5_witness :
    300000000000 < (List.replicate 301 (ReqAttempt.transportErr "boom")).length * 1000000000 ∧
    ∃ m, backoffRetry retryWithBackoffConfig operation
      (List.replicate 301 (ReqAttempt.transportErr "boom")) 0
      retryWithBackoffConfig.InitialInterval = some (Except.error m) := by
  have hlen : 300000000000 <
      (List.replicate 301 (ReqAttempt.transportErr "boom")).length * 1000000000 := by
    rw [List.length_replicate]; norm_num
  refine ⟨hlen, c5_confirmed.2.2.2.2 _ ?_ hlen⟩
  intro a ha
  rw [List.eq_of_mem_replicate ha]
  rfl

/-! Concrete response fixtures used by witnesses and counterexamples. -/

/-- A healthy first page: cursor c0, total 2, one record titled Document 1. -/
def rawFirst : JObject :=
  [("_scroll_id", JValue.str "c0"),
   ("hits", JValue.obj
     [("total", JValue.obj [("value", JValue.num 2)]),
      ("hits", JValue.arr
        [JValue.obj [("_source", JValue.obj [("title", JValue.str "Document 1")])]])])]

/-- A healthy middle page: cursor cN, total 2, one record titled Document 2. -/
def rawNext : JObject :=
  [("_scroll_id", JValue.str "cN"),
   ("hits", JValue.obj
     [("total", JValue.obj [("value", JValue.num 2)]),
      ("hits", JValue.arr
        [JValue.obj [("_source", JValue.obj [("title", JValue.str "Document 2")])]])])]

/-- A healthy final page: cursor c1, total 2, no records. -/
def rawLast : JObject :=
  [("_scroll_id", JValue.str "c1"),
   ("hits", JValue.obj
     [("total", JValue.obj [("value", JValue.num 2)]),
      ("hits", JValue.arr [])])]

/-- Environment in which the initial search suffers one transient failure and
recovers, and the first scroll request then suffers the same transient failure
while a healthy page would have answered a retry. -/
def envC2 : Env :=
  { searchAttempts := [ReqAttempt.transportErr "connection refused", ReqAttempt.success rawFirst]
    scrollOutcomes := [ScrollOutcome.transportErr "connection refused", ScrollOutcome.page rawLast]
    clearOutcome := ClearOutcome.ok
    cancelled := fun _ => false }

/-- Claim C2, corrected. In the modular scroll client every follow-up page
request runs under the same retrying backoff executor as the initial query, so
transient failures before a healthy response within the budget are retried
through; in the refactored variant, however, the paging loop issues scroll
requests without the backoff executor, and a single transport failure
immediately fails the session after exactly one scroll call. -/
theorem c2_amended :
    (∀ (pre : List ReqAttempt) (raw : JObject),
      (∀ a ∈ pre, (handleESResponse a).isSome) → pre.length ≤ 9 →
      ESClient.Scroll (pre ++ [ReqAttempt.success raw]) = some (parseScrollResponse raw)) ∧
    (∀ (env : Env) (m : String) (rest : List ScrollOutcome) (raw0 : JObject) (r0 : SearchResult),
      backoffRetry retryWithBackoffConfig operation env.searchAttempts 0
        retryWithBackoffConfig.InitialInterval = some (Except.ok raw0) →
      parseSearchResponse raw0 = Except.ok r0 →
      env.cancelled 0 = false →
      env.scrollOutcomes = ScrollOutcome.transportErr m :: rest →
      (executeSearch env).map RunResult.err = some (some ("scroll request failed: " ++ m)) ∧
      (executeSearch env).map RunResult.scrollCalls = some 1) := by
  constructor
  · intro pre raw hall hlen
    have hcfg : newBackoffConfig = retryWithBackoffConfig := rfl
    simp only [ESClient.Scroll, hcfg]
    rw [backoffRetry_success handleESResponse raw rfl pre 0 _ hall (by decide)
      (by have h1 : retryWithBackoffConfig.InitialInterval = 1000000000 := rfl
          rw [h1]; omega)]
  · intro env m rest raw0 r0 hsearch hparse hcancel hscroll
    simp [executeSearch, hsearch, hparse, hscroll, scrollLoop, hcancel]

/-- Claim C2, counterexample to the claim as stated: in the refactored variant
the same transient transport failure that is retried and recovered from during
the initial search immediately fails the session when it occurs on a scroll
fetch, even though the environment would have answered a retry with a healthy
page: exactly one scroll call is issued and the run ends in error. -/
theorem c2_counterexample :
    (executeSearch envC2).map RunResult.err =
      some (some "scroll request failed: connection refused") ∧
    (executeSearch envC2).map RunResult.scrollCalls = some 1 := ⟨rfl, rfl⟩

/-- Claim C2, witness: the modular client retries a scroll request through a
transient failure and returns the parse of the healthy response. -/
theorem c2_witness :
    ESClient.Scroll [ReqAttempt.transportErr "net down", ReqAttempt.success rawLast] =
      some (parseScrollResponse rawLast) := by
  have h := c2_amended.1 [ReqAttempt.transportErr "net down"] rawLast
    (by intro a ha; simp at ha; subst ha; rfl) (by norm_num)
  simpa using h

/-! Helper lemmas about the refactored paging loop and the modular main
loop. -/

theorem scrollLoop_pages (cancelled : Nat → Bool) (hc : ∀ j, cancelled j = false)
    (rawE : JObject) (rE : SearchResult) (hE : parseSearchResponse rawE = Except.ok rE)
    (hEmpty : rE.Hits = []) (rest : List ScrollOutcome) :
    ∀ raws rs,
      List.Forall₂ (fun raw r => parseSearchResponse raw = Except.ok r ∧ r.Hits ≠ []) raws rs →
      ∀ i st,
        scrollLoop cancelled (raws.map ScrollOutcome.page ++ ScrollOutcome.page rawE :: rest)
            i st =
          ({ scrollID := rs.foldl (fun _ r => r.ScrollID) st.scrollID
             out := rs.foldl (fun acc r => acc ++ (processHits r.Hits).1) st.out
             diags := rs.foldl (fun acc r => acc ++ (processHits r.Hits).2) st.diags
             calls := st.calls + (raws.length + 1) }, LoopExit.done) := by
  intro raws rs h
  induction h with
  | nil =>
    intro i st
    simp [scrollLoop, hc, hE, hEmpty]
  | cons hpair htail ih =>
    intro i st
    simp only [List.map_cons, List.cons_append, scrollLoop, hc, Bool.false_eq_true, if_false,
      hpair.1, if_neg hpair.2, List.append_eq]
    rw [ih (i + 1) _]
    simp only [List.foldl_cons, List.length_cons, Prod.mk.injEq, LoopState.mk.injEq,
      and_true, true_and]
    omega

theorem scrollLoop_cancel (cancelled : Nat → Bool) (rest : List ScrollOutcome) :
    ∀ raws rs,
      List.Forall₂ (fun raw r => parseSearchResponse raw = Except.ok r ∧ r.Hits ≠ []) raws rs →
      ∀ i st, (∀ j, j < raws.length → cancelled (i + j) = false) →
        cancelled (i + raws.length) = true →
        scrollLoop cancelled (raws.map ScrollOutcome.page ++ rest) i st =
          ({ scrollID := rs.foldl (fun _ r => r.ScrollID) st.scrollID
             out := rs.foldl (fun acc r => acc ++ (processHits r.Hits).1) st.out
             diags := rs.foldl (fun acc r => acc ++ (processHits r.Hits).2) st.diags
             calls := st.calls + raws.length }, LoopExit.done) := by
  intro raws rs h
  induction h with
  | nil =>
    intro i st _ hcan
    simp only [List.length_nil, Nat.add_zero] at hcan
    rw [scrollLoop.eq_def]
    simp [hcan]
  | @cons raw r raws' rs' hpair htail ih =>
    intro i st hlow hcan
    have h0 : cancelled i = false := by simpa using hlow 0 (by simp)
    simp only [List.length_cons] at hlow hcan
    simp only [List.map_cons, List.cons_append, scrollLoop, h0, Bool.false_eq_true, if_false,
      hpair.1, if_neg hpair.2, List.append_eq]
    rw [ih (i + 1) _
      (fun j hj => by
        have hx := hlow (j + 1) (by omega)
        rwa [show i + (j + 1) = i + 1 + j by omega] at hx)
      (by rwa [show i + 1 + raws'.length = i + (raws'.length + 1) by omega])]
    simp only [List.foldl_cons, List.length_cons, Prod.mk.injEq, LoopState.mk.injEq,
      and_true, true_and]
    omega

theorem scrollLoop_calls_le (cancelled : Nat → Bool) (k : Nat) (hk : cancelled k = true) :
    ∀ outcomes i st, i ≤ k →
      (scrollLoop cancelled outcomes i st).1.calls ≤ st.calls + (k - i) := by
  intro outcomes
  induction outcomes with
  | nil =>
    intro i st _
    rw [scrollLoop.eq_def]
    by_cases hci : cancelled i = true <;> simp [hci]
  | cons o rest ih =>
    intro i st hik
    by_cases hci : cancelled i = true
    · rw [scrollLoop.eq_def]
      simp [hci]
    · have hlt : i < k := by
        rcases Nat.eq_or_lt_of_le hik with he | hl
        · exact absurd (he ▸ hk) hci
        · exact hl
      cases o with
      | transportErr m => simp [scrollLoop, hci]; omega
      | errResponse m => simp [scrollLoop, hci]; omega
      | page raw =>
        cases hp : parseSearchResponse raw with
        | error e => simp [scrollLoop, hci, hp]; omega
        | ok r =>
          by_cases hr : r.Hits = []
          · simp [scrollLoop, hci, hp, hr]; omega
          · simp only [scrollLoop, hci, Bool.false_eq_true, if_false, hp, if_neg hr]
            refine le_trans (ih (i + 1) _ hlt) ?_
            show st.calls + 1 + (k - (i + 1)) ≤ st.calls + (k - i)
            omega

theorem modularMainLoop_pages :
    ∀ (rs : List ScrollResult), (∀ r ∈ rs, r.Hits ≠ []) →
      ∀ (rE : ScrollResult), rE.Hits = [] →
      ∀ (rest : List (Except String ScrollResult)) (out : List String),
        modularMainLoop (rs.map Except.ok ++ Except.ok rE :: rest) out =
          some (Except.ok (rE.ScrollID,
            rs.foldl (fun acc r => acc ++ (FileProcessor.ProcessHits r.Hits).1) out)) := by
  intro rs
  induction rs with
  | nil =>
    intro _ rE hE rest out
    simp [modularMainLoop, hE]
  | cons r rs' ih =>
    intro hall rE hE rest out
    obtain ⟨x, xs, hx⟩ := List.exists_cons_of_ne_nil (hall r (by simp))
    simp only [List.map_cons, List.cons_append, modularMainLoop, hx, List.foldl_cons]
    exact ih (fun a ha => hall a (List.mem_cons_of_mem r ha)) rE hE rest _

/-- Claim C1, confirmed. In both the refactored and the modular paging loop, a
page result with zero records ends the loop: however many non-empty pages
preceded it and whatever total the first page reported, the run issues exactly
one scroll call per consumed page plus the final empty one, never touches the
remaining environment, and finishes without error: the empty page is treated
as valid end-of-data. -/
theorem c1_confirmed :
    (∀ (env : Env) (raw0 : JObject) (r0 : SearchResult) (raws : List JObject)
        (rs : List SearchResult) (rawE : JObject) (rE : SearchResult)
        (rest : List ScrollOutcome),
      backoffRetry retryWithBackoffConfig operation env.searchAttempts 0
        retryWithBackoffConfig.InitialInterval = some (Except.ok raw0) →
      parseSearchResponse raw0 = Except.ok r0 →
      env.scrollOutcomes = raws.map ScrollOutcome.page ++ ScrollOutcome.page rawE :: rest →
      List.Forall₂ (fun raw r => parseSearchResponse raw = Except.ok r ∧ r.Hits ≠ []) raws rs →
      parseSearchResponse rawE = Except.ok rE → rE.Hits = [] →
      (∀ j, env.cancelled j = false) →
      (executeSearch env).map RunResult.scrollCalls = some (raws.length + 1) ∧
      (executeSearch env).map RunResult.err = some none) ∧
    (∀ (rs : List ScrollResult), (∀ r ∈ rs, r.Hits ≠ []) →
      ∀ (rE : ScrollResult), rE.Hits = [] →
      ∀ (rest : List (Except String ScrollResult)) (out : List String),
        modularMainLoop (rs.map Except.ok ++ Except.ok rE :: rest) out =
          some (Except.ok (rE.ScrollID,
            rs.foldl (fun acc r => acc ++ (FileProcessor.ProcessHits r.Hits).1) out))) := by
  constructor
  · intro env raw0 r0 raws rs rawE rE rest hsearch hparse0 hsc hpages hE hEmpty hc
    have hloop := scrollLoop_pages env.cancelled hc rawE rE hE hEmpty rest raws rs hpages 0
      { scrollID := r0.ScrollID, out := (processHits r0.Hits).1
        diags := (processHits r0.Hits).2, calls := 0 }
    simp [executeSearch, hsearch, hparse0, hsc, hloop]
  · exact modularMainLoop_pages

/-- Environment for a clean two-page run: a healthy initial page, one healthy
non-empty scroll page, then the terminating empty page. -/
def envC1 : Env :=
  { searchAttempts := [ReqAttempt.success rawFirst]
    scrollOutcomes := [ScrollOutcome.page rawNext, ScrollOutcome.page rawLast]
    clearOutcome := ClearOutcome.ok
    cancelled := fun _ => false }

/-- Claim C1, witness: on the concrete two-page run the loop stops after the
empty page with two scroll calls and no error. -/
theorem c1_witness :
    (executeSearch envC1).map RunResult.scrollCalls = some 2 ∧
    (executeSearch envC1).map RunResult.err = some none := by
  have hf : List.Forall₂ (fun raw r => parseSearchResponse raw = Except.ok r ∧ r.Hits ≠ [])
      [rawNext] [⟨"cN", 2, [⟨⟨"Document 2"⟩⟩]⟩] :=
    List.Forall₂.cons ⟨rfl, by simp⟩ List.Forall₂.nil
  simpa using c1_confirmed.1 envC1 rawFirst ⟨"c0", 2, [⟨⟨"Document 1"⟩⟩]⟩ [rawNext] _ rawLast
    ⟨"c1", 2, []⟩ [] rfl rfl rfl hf rfl rfl (fun _ => rfl)

/-- Environment for a run whose first scroll page is already the terminating
empty page, carrying a fresh cursor c1 distinct from the initial cursor c0. -/
def envC7 : Env :=
  { searchAttempts := [ReqAttempt.success rawFirst]
    scrollOutcomes := [ScrollOutcome.page rawLast]
    clearOutcome := ClearOutcome.ok
    cancelled := fun _ => false }

/-- Claim C7, counterexample to the claim as stated: the final (empty) fetch
returns cursor c1, but the refactored loop breaks before adopting it, so the
cursor passed to the release operation is the previous cursor c0, not the one
returned by the last successful fetch. -/
theorem c7_counterexample :
    (executeSearch envC7).map RunResult.clearArg = some "c0" ∧
    parseSearchResponse rawLast = Except.ok ⟨"c1", 2, []⟩ ∧
    "c0" ≠ "c1" := ⟨rfl, rfl, by decide⟩

/-- Claim C7, corrected. One cursor is live at a time (the loop threads a
single cursor variable), and each successful fetch that returns records
replaces the held cursor. In the refactored variant the final empty fetch does
not replace it: the cursor passed to the release step is the one returned by
the last fetch that carried records, or by the initial search when no scroll
page carried any. In the modular variant every fetch replaces the cursor
before the empty check, so there the released cursor is the final empty
fetch's. -/
theorem c7_amended :
    (∀ (env : Env) (raw0 : JObject) (r0 : SearchResult) (raws : List JObject)
        (rs : List SearchResult) (rawE : JObject) (rE : SearchResult)
        (rest : List ScrollOutcome),
      backoffRetry retryWithBackoffConfig operation env.searchAttempts 0
        retryWithBackoffConfig.InitialInterval = some (Except.ok raw0) →
      parseSearchResponse raw0 = Except.ok r0 →
      env.scrollOutcomes = raws.map ScrollOutcome.page ++ ScrollOutcome.page rawE :: rest →
      List.Forall₂ (fun raw r => parseSearchResponse raw = Except.ok r ∧ r.Hits ≠ []) raws rs →
      parseSearchResponse rawE = Except.ok rE → rE.Hits = [] →
      (∀ j, env.cancelled j = false) →
      (executeSearch env).map RunResult.clearCalled = some true ∧
      (executeSearch env).map RunResult.clearArg =
        some (rs.foldl (fun _ r => r.ScrollID) r0.ScrollID)) ∧
    (∀ (rs : List ScrollResult), (∀ r ∈ rs, r.Hits ≠ []) →
      ∀ (rE : ScrollResult), rE.Hits = [] →
      ∀ (rest : List (Except String ScrollResult)) (out : List String),
        modularMainLoop (rs.map Except.ok ++ Except.ok rE :: rest) out =
          some (Except.ok (rE.ScrollID,
            rs.foldl (fun acc r => acc ++ (FileProcessor.ProcessHits r.Hits).1) out))) := by
  constructor
  · intro env raw0 r0 raws rs rawE rE rest hsearch hparse0 hsc hpages hE hEmpty hc
    have hloop := scrollLoop_pages env.cancelled hc rawE rE hE hEmpty rest raws rs hpages 0
      { scrollID := r0.ScrollID, out := (processHits r0.Hits).1
        diags := (processHits r0.Hits).2, calls := 0 }
    simp [executeSearch, hsearch, hparse0, hsc, hloop]
  · exact modularMainLoop_pages

/-- Claim C7, witness: after one non-empty scroll page with cursor cN followed
by the empty page, the refactored run releases cursor cN (the last fetch that
returned records), not the empty page's cursor. -/
theorem c7_witness :
    (executeSearch envC1).map RunResult.clearCalled = some true ∧
    (executeSearch envC1).map RunResult.clearArg = some "cN" := by
  have hf : List.Forall₂ (fun raw r => parseSearchResponse raw = Except.ok r ∧ r.Hits ≠ [])
      [rawNext] [⟨"cN", 2, [⟨⟨"Document 2"⟩⟩]⟩] :=
    List.Forall₂.cons ⟨rfl, by simp⟩ List.Forall₂.nil
  simpa using c7_amended.1 envC1 rawFirst ⟨"c0", 2, [⟨⟨"Document 1"⟩⟩]⟩ [rawNext] _ rawLast
    ⟨"c1", 2, []⟩ [] rfl rfl rfl hf rfl rfl (fun _ => rfl)

/-- Claim C10, confirmed. In the refactored variant, when the context is
cancelled during the paging loop after a successful initial search (after any
number of non-empty pages), executeSearch leaves the loop at the next
iteration boundary without issuing that fetch, still reaches the cursor
release step, and returns nil, so the run reports overall success. -/
theorem c10_confirmed :
    ∀ (env : Env) (raw0 : JObject) (r0 : SearchResult) (raws : List JObject)
      (rs : List SearchResult) (rest : List ScrollOutcome),
      backoffRetry retryWithBackoffConfig operation env.searchAttempts 0
        retryWithBackoffConfig.InitialInterval = some (Except.ok raw0) →
      parseSearchResponse raw0 = Except.ok r0 →
      env.scrollOutcomes = raws.map ScrollOutcome.page ++ rest →
      List.Forall₂ (fun raw r => parseSearchResponse raw = Except.ok r ∧ r.Hits ≠ []) raws rs →
      (∀ j, j < raws.length → env.cancelled j = false) →
      env.cancelled raws.length = true →
      (executeSearch env).map RunResult.err = some none ∧
      (executeSearch env).map RunResult.clearCalled = some true ∧
      (executeSearch env).map RunResult.scrollCalls = some raws.length := by
  intro env raw0 r0 raws rs rest hsearch hparse0 hsc hpages hlow hcan
  have hloop := scrollLoop_cancel env.cancelled rest raws rs hpages 0
    { scrollID := r0.ScrollID, out := (processHits r0.Hits).1
      diags := (processHits r0.Hits).2, calls := 0 }
    (fun j hj => by simpa using hlow j hj) (by simpa using hcan)
  simp [executeSearch, hsearch, hparse0, hsc, hloop]

/-- Environment in which the context is cancelled after the first scroll page
has been processed; the clear-scroll request then fails under the cancelled
context. -/
def envC10 : Env :=
  { searchAttempts := [ReqAttempt.success rawFirst]
    scrollOutcomes := [ScrollOutcome.page rawNext]
    clearOutcome := ClearOutcome.transportErr "context canceled"
    cancelled := fun i => decide (1 ≤ i) }

/-- Claim C10, witness: the cancelled run processed one page, attempted the
cursor release, and still returned nil. -/
theorem c10_witness :
    (executeSearch envC10).map RunResult.err = some none ∧
    (executeSearch envC10).map RunResult.clearCalled = some true ∧
    (executeSearch envC10).map RunResult.scrollCalls = some 1 := by
  have hf : List.Forall₂ (fun raw r => parseSearchResponse raw = Except.ok r ∧ r.Hits ≠ [])
      [rawNext] [⟨"cN", 2, [⟨⟨"Document 2"⟩⟩]⟩] :=
    List.Forall₂.cons ⟨rfl, by simp⟩ List.Forall₂.nil
  have h := c10_confirmed envC10 rawFirst ⟨"c0", 2, [⟨⟨"Document 1"⟩⟩]⟩ [rawNext] _ []
    rfl rfl rfl hf
    (fun j hj => by
      have hj0 : j = 0 := by simpa using hj
      subst hj0
      rfl)
    rfl
  simpa using h

/-- Claim C3, counterexample to the claim as stated: in the monolithic draft
variants a transport-level failure of the clear-scroll request is passed to
log.Fatalf, terminating the run with a failure instead of a successful
outcome. -/
theorem c3_counterexample :
    draftClearScroll (ClearOutcome.transportErr "connection reset") =
      Except.error "Error clearing scroll: connection reset" := rfl

/-- Claim C3, corrected. In the refactored variant every session that reaches
the close step is already a success: a clear-scroll failure leaves the nil
return and the written output unchanged and surfaces only a warning. In the
monolithic draft variants, however, a transport-level clear-scroll failure
terminates the process fatally, while an engine error response to the clear
request is silently ignored. -/
theorem c3_amended :
    (∀ (env : Env) (res : RunResult), executeSearch env = some res →
      res.clearCalled = true →
      res.err = none ∧
      (executeSearch { env with clearOutcome := ClearOutcome.ok }).map RunResult.out =
        some res.out ∧
      (env.clearOutcome ≠ ClearOutcome.ok → res.warns ≠ [])) ∧
    (∀ m, draftClearScroll (ClearOutcome.transportErr m) =
        Except.error ("Error clearing scroll: " ++ m) ∧
      draftClearScroll (ClearOutcome.errResponse m) = Except.ok ()) := by
  constructor
  · intro env res h hcc
    cases hbr : backoffRetry retryWithBackoffConfig operation env.searchAttempts 0
        retryWithBackoffConfig.InitialInterval with
    | none => simp [executeSearch, hbr] at h
    | some res0 =>
      cases res0 with
      | error e =>
        simp only [executeSearch, hbr, Option.some.injEq] at h
        subst h
        simp at hcc
      | ok raw =>
        cases hpr : parseSearchResponse raw with
        | error e =>
          simp only [executeSearch, hbr, hpr, Option.some.injEq] at h
          subst h
          simp at hcc
        | ok r0 =>
          rcases hsl : scrollLoop env.cancelled env.scrollOutcomes 0
              { scrollID := r0.ScrollID, out := (processHits r0.Hits).1
                diags := (processHits r0.Hits).2, calls := 0 } with ⟨st, ex⟩
          cases ex with
          | fuelOut => simp [executeSearch, hbr, hpr, hsl] at h
          | errExit e =>
            simp only [executeSearch, hbr, hpr, hsl, Option.some.injEq] at h
            subst h
            simp at hcc
          | done =>
            simp only [executeSearch, hbr, hpr, hsl, Option.some.injEq] at h
            subst h
            refine ⟨rfl, ?_, ?_⟩
            · simp [executeSearch, hbr, hpr, hsl]
            · intro hne
              cases hco : env.clearOutcome with
              | ok => exact absurd hco hne
              | transportErr m => simp [clearScroll, hco]
              | errResponse m => simp [clearScroll, hco]
  · intro m
    exact ⟨rfl, rfl⟩

/-- Environment for a successful two-page session whose clear-scroll request
fails at the transport level. -/
def envC3 : Env :=
  { searchAttempts := [ReqAttempt.success rawFirst]
    scrollOutcomes := [ScrollOutcome.page rawLast]
    clearOutcome := ClearOutcome.transportErr "connection reset"
    cancelled := fun _ => false }

/-- The run result of the session in envC3. -/
def resC3 : RunResult :=
  { err := none, out := ["Document 1\n"], diags := [], scrollCalls := 1
    clearCalled := true, clearArg := "c0"
    warns := ["Error clearing scroll: connection reset"] }

/-- Claim C3, witness: the concrete failed-close session still returns nil,
its output matches the run with a healthy close, and a warning is surfaced. -/
theorem c3_witness :
    resC3.err = none ∧
    (executeSearch { envC3 with clearOutcome := ClearOutcome.ok }).map RunResult.out =
      some resC3.out ∧
    (envC3.clearOutcome ≠ ClearOutcome.ok → resC3.warns ≠ []) :=
  c3_amended.1 envC3 resC3 rfl rfl

/-- Claim C8, confirmed. Under the refactored executor's context-aware backoff
(modelled with a virtual clock), a pending wait never runs past the moment of
cancellation: when every attempt fails the executor returns no later than the
cancellation time (or its start time), and an already-cancelled context makes
the next NextBackOff call stop immediately at the current time, surfacing the
context's error instead of completing the backoff schedule. The refactored
paging loop observes cancellation at its iteration boundary: a run whose
context is cancelled at check k issues at most k scroll fetches. -/
theorem c8_confirmed :
    (∀ (cancelAt : Nat) (l : List ReqAttempt) (e i : Nat),
      (∀ a ∈ l, (operation a).isSome) →
      (retryWithBackoffCtx cancelAt l e i).2 ≤ max e cancelAt) ∧
    (∀ (cancelAt : Nat) (a : ReqAttempt) (m : String) (rest : List ReqAttempt) (e i : Nat),
      operation a = some m → cancelAt ≤ e →
      retryWithBackoffCtx cancelAt (a :: rest) e i =
        (some (Except.error "context canceled"), e)) ∧
    (∀ (env : Env) (k : Nat), env.cancelled k = true →
      ∀ n, (executeSearch env).map RunResult.scrollCalls = some n → n ≤ k) := by
  refine ⟨?_, ?_, ?_⟩
  · intro cancelAt l
    induction l with
    | nil => intro e i _; simp [retryWithBackoffCtx]
    | cons a rest ih =>
      intro e i hall
      obtain ⟨m, hm⟩ := Option.isSome_iff_exists.mp (hall a (by simp))
      simp only [retryWithBackoffCtx, hm]
      by_cases h1 : cancelAt ≤ e
      · simp only [if_pos h1]
        exact le_max_left e cancelAt
      · rw [if_neg h1]
        by_cases h2 : retryWithBackoffConfig.MaxElapsedTime < e + i
        · simp only [if_pos h2]
          exact le_max_left e cancelAt
        · rw [if_neg h2]
          by_cases h3 : cancelAt ≤ e + i
          · simp only [if_pos h3]
            exact le_max_right e cancelAt
          · rw [if_neg h3]
            refine le_trans (ih (e + i) _ (fun x hx => hall x (List.mem_cons_of_mem a hx))) ?_
            rw [max_eq_right (le_of_lt (by omega))]
            exact le_max_right e cancelAt
  · intro cancelAt a m rest e i hop hce
    simp [retryWithBackoffCtx, hop, hce]
  · intro env k hk n hn
    cases hbr : backoffRetry retryWithBackoffConfig operation env.searchAttempts 0
        retryWithBackoffConfig.InitialInterval with
    | none => simp [executeSearch, hbr] at hn
    | some res0 =>
      cases res0 with
      | error e =>
        simp [executeSearch, hbr] at hn
        omega
      | ok raw =>
        cases hpr : parseSearchResponse raw with
        | error e =>
          simp [executeSearch, hbr, hpr] at hn
          omega
        | ok r0 =>
          have hcalls := scrollLoop_calls_le env.cancelled k hk env.scrollOutcomes 0
            { scrollID := r0.ScrollID, out := (processHits r0.Hits).1
              diags := (processHits r0.Hits).2, calls := 0 } (Nat.zero_le k)
          rcases hsl : scrollLoop env.cancelled env.scrollOutcomes 0
              { scrollID := r0.ScrollID, out := (processHits r0.Hits).1
                diags := (processHits r0.Hits).2, calls := 0 } with ⟨st, ex⟩
          rw [hsl] at hcalls
          simp at hcalls
          cases ex with
          | fuelOut => simp [executeSearch, hbr, hpr, hsl] at hn
          | errExit e =>
            simp [executeSearch, hbr, hpr, hsl] at hn
            omega
          | done =>
            simp [executeSearch, hbr, hpr, hsl] at hn
            omega

/-- Environment whose governing context is cancelled from the start: the loop
issues no scroll fetch at all. -/
def envC8 : Env :=
  { searchAttempts := [ReqAttempt.success rawFirst]
    scrollOutcomes := []
    clearOutcome := ClearOutcome.ok
    cancelled := fun _ => true }

/-- Claim C8, witness: a concrete abandoned wait (cancellation at five virtual
seconds caps the executor's return time), an immediate stop under an
already-cancelled context, and a run cancelled at check five that issued zero
scroll fetches. -/
theorem c8_witness :
    (retryWithBackoffCtx 5000000000
        [ReqAttempt.transportErr "x", ReqAttempt.transportErr "x"] 0 1000000000).2 ≤
      max 0 5000000000 ∧
    retryWithBackoffCtx 2 [ReqAttempt.transportErr "x"] 3 7 =
      (some (Except.error "context canceled"), 3) ∧
    (executeSearch envC8).map RunResult.scrollCalls = some 0 ∧ 0 ≤ 5 := by
  refine ⟨c8_confirmed.1 5000000000 _ 0 1000000000 ?_,
    c8_confirmed.2.1 2 _ "x" [] 3 7 rfl (by omega), rfl,
    c8_confirmed.2.2 envC8 5 rfl 0 rfl⟩
  intro a ha
  simp only [List.mem_cons, List.not_mem_nil, or_false] at ha
  rcases ha with rfl | rfl <;> rfl

/-- Claim C9, confirmed. For every total hit count and positive page size, the
reported total page count, computed by integer division as
(total + pageSize - 1) / pageSize, equals the ceiling of total / pageSize. -/
theorem c9_confirmed (N P : Nat) (hP : 0 < P) :
    (totalPages N P : ℤ) = ⌈(N : ℚ) / (P : ℚ)⌉ := by
  have key : ∀ c : ℕ, totalPages N P ≤ c ↔ N ≤ P * c := by
    intro c
    have h := ceilDiv_le_iff_le_smul (α := ℕ) (β := ℕ) hP (b := N) (c := c)
    simpa [totalPages, Nat.ceilDiv_eq_add_pred_div, smul_eq_mul] using h
  have hQP : (0 : ℚ) < (P : ℚ) := by exact_mod_cast hP
  have hnn : (0 : ℚ) ≤ (N : ℚ) / (P : ℚ) := by positivity
  apply le_antisymm
  · set c : ℕ := (⌈(N : ℚ) / (P : ℚ)⌉).toNat with hc
    have hcz : (c : ℤ) = ⌈(N : ℚ) / (P : ℚ)⌉ := Int.toNat_of_nonneg (Int.ceil_nonneg hnn)
    have h1 : (N : ℚ) / (P : ℚ) ≤ (c : ℚ) := by
      have hle := Int.le_ceil ((N : ℚ) / (P : ℚ))
      rw [← hcz] at hle
      exact_mod_cast hle
    have h2 : N ≤ P * c := by
      rw [div_le_iff₀ hQP] at h1
      have h2' : N ≤ c * P := by exact_mod_cast h1
      calc N ≤ c * P := h2'
        _ = P * c := Nat.mul_comm c P
    calc ((totalPages N P : ℕ) : ℤ) ≤ (c : ℤ) := by exact_mod_cast (key c).mpr h2
      _ = ⌈(N : ℚ) / (P : ℚ)⌉ := hcz
  · rw [Int.ceil_le]
    have h4 : N ≤ P * totalPages N P := (key (totalPages N P)).mp le_rfl
    rw [div_le_iff₀ hQP]
    push_cast
    exact_mod_cast Nat.mul_comm P (totalPages N P) ▸ h4

/-- Claim C9, witness: thirteen hits at page size six give the ceiling, three
pages. -/
theorem c9_witness :
    0 < 6 ∧ (totalPages 13 6 : ℤ) = ⌈((13 : ℕ) : ℚ) / ((6 : ℕ) : ℚ)⌉ :=
  ⟨by norm_num, c9_confirmed 13 6 (by norm_num)⟩

end ESQuerier
